import Mathlib

/-!
Verification of the data-synchronization core of the solidjs event-catalog
application (pages Home.jsx and EventManagement.jsx), shallowly embedded in
Lean 4.

Strings are modelled as lists of Unicode code points (JS strings are
sequences of code units); timestamps as integer epoch milliseconds.
-/

set_option autoImplicit false

namespace EventApp

/-- A string, modelled as its list of code points. -/
abbrev Str := List Nat

/-- Embed a Lean string literal as a `Str`. -/
def strOf (s : String) : Str := s.data.map (fun c => c.toNat)

/-- Code-point model of the JS whitespace test used by String.trim
(restricted to the ASCII whitespace the application can receive). -/
def isSpaceN (n : Nat) : Bool := n == 32 || n == 9 || n == 10 || n == 13

/-- Code-point model of String.toLowerCase, restricted to ASCII letters
(the only case-carrying characters exercised by the application). -/
def lowerN (n : Nat) : Nat := if 65 ≤ n ∧ n ≤ 90 then n + 32 else n

/-- Model of String.toLowerCase on a whole string. -/
def toLowerStr (s : Str) : Str := s.map lowerN

/-- Model of String.trim: strip leading and trailing whitespace. -/
def trimStr (s : Str) : Str :=
  ((s.dropWhile isSpaceN).reverse.dropWhile isSpaceN).reverse

/-- Model of String.includes: the needle occurs contiguously in the hay
(the empty needle occurs everywhere, as in JS). -/
def containsSub (needle : Str) : Str → Bool
  | [] => needle == []
  | c :: rest => needle.isPrefixOf (c :: rest) || containsSub needle rest

/-- The datetime field of an event arrives either as a native date value
(raw epoch milliseconds, e.g. right after a local create wrote
new Date(...)) or as the store-native timestamp wrapper, which exposes a
toDate() conversion producing the underlying instant.  The source tests
for the wrapper with the truthiness of the toDate property. -/
inductive DatetimeRep where
  | raw (millis : Int)
  | wrapped (millis : Int)
deriving DecidableEq

/-- An event document of the "events" collection, as materialized by the
pages: doc.id plus the stored fields.  name and description go through
optional chaining in the source, so they are optional here; favorites may
be absent on documents never favorited (the source guards with
`event.favorites || []` and `event.favorites?.includes`). -/
structure EventDoc where
  id : Str
  name : Option Str
  description : Option Str
  datetime : DatetimeRep
  isPrivate : Bool
  category : Str
  userId : Str
  created : Int
  favorites : Option (List Str)
deriving DecidableEq

/-- `event.favorites || []`. -/
def favOf (o : Option (List Str)) : List Str := o.getD []

/-! ## Query composer (firebase query / where / orderBy calls) -/

/-- One where(...) clause as composed by the pages; all comparisons are
equalities. -/
inductive WherePred where
  | isPrivateEq (b : Bool)
  | categoryEq (c : Str)
  | userIdEq (u : Str)
deriving DecidableEq

/-- A composed query: the conjunction of where clauses plus an optional
orderBy (field name, descending flag). -/
structure QuerySpec where
  wheres : List WherePred
  order : Option (Str × Bool)
deriving DecidableEq

/-- Home.jsx loadEvents: `query(eventsRef, where("isPrivate", "==", false))`,
then adds `where("category", "==", selectedCategory())` unless the selected
category is "All".  No orderBy clause is composed. -/
def homeQuery (cat : Str) : QuerySpec :=
  { wheres := .isPrivateEq false ::
      (if cat = strOf "All" then [] else [.categoryEq cat])
    order := none }

/-- EventManagement.jsx loadEvents / searchEvents: `query(eventsRef,
where("userId", "==", userId), orderBy("created", "desc"))`, then adds
`where("category", "==", filterCategory())` when the filter category is
non-empty (truthy). -/
def emQuery (uid cat : Str) : QuerySpec :=
  { wheres := .userIdEq uid ::
      (if cat = [] then [] else [.categoryEq cat])
    order := some (strOf "created", true) }

/-- Whether a document satisfies one where clause. -/
def matchesWhere (ev : EventDoc) (w : WherePred) : Bool :=
  match w with
  | .isPrivateEq b => ev.isPrivate == b
  | .categoryEq c => ev.category == c
  | .userIdEq u => ev.userId == u

/-- Insert into a list sorted by created descending. -/
def insertByCreatedDesc (ev : EventDoc) : List EventDoc → List EventDoc
  | [] => [ev]
  | x :: xs =>
    if x.created ≤ ev.created then ev :: x :: xs
    else x :: insertByCreatedDesc ev xs

/-- Sort a snapshot by created descending. -/
def sortByCreatedDesc : List EventDoc → List EventDoc
  | [] => []
  | x :: xs => insertByCreatedDesc x (sortByCreatedDesc xs)

/-- Model of the remote store executing a composed query over the events
collection: keep the documents satisfying every where clause (clauses are
ANDed) and, when an orderBy is present, return them in that order.  The
only orderBy the pages ever compose is ("created", descending). -/
def runQuery (catalog : List EventDoc) (q : QuerySpec) : List EventDoc :=
  let filtered := catalog.filter (fun ev => q.wheres.all (matchesWhere ev))
  match q.order with
  | none => filtered
  | some _ => sortByCreatedDesc filtered

/-! ## Home page state (public browse + favorite reconciler) -/

/-- The reactive state of Home.jsx that the claims talk about: the events
mirror, the favorites index (event ids), the loading flag, the notice
shown to the user, and the console log.  Home.jsx declares no error signal
and renders no notice element, so nothing in its code ever writes
`notice`; it is part of the state so that "a notice is surfaced" is
expressible for this view. -/
structure HomeState where
  events : List EventDoc
  favorites : List Str
  loading : Bool
  notice : Option Str
  log : List Str
deriving DecidableEq

/-- Console message of the Home.jsx load failure path. -/
def homeLoadErrMsg : Str := strOf "Event load failed"

/-- Console message of the Home.jsx toggle failure path. -/
def toggleErrMsg : Str := strOf "Error toggling favorite"

/-- Home.jsx loadEvents: run the public-browse query; on success replace
the events mirror and, when a session is active, rebuild the favorites
index from the loaded documents; on failure only log (the catch block is
a bare console.error).  The loading flag is set before the call and
cleared in the finally block on every path. -/
def loadHome (auth : Bool) (uid : Str) (st : HomeState)
    (catalog : List EventDoc) (cat : Str) (remoteOk : Bool) : HomeState :=
  if remoteOk then
    let loaded := runQuery catalog (homeQuery cat)
    let favs :=
      if auth then
        (loaded.filter (fun ev =>
          match ev.favorites with
          | none => false
          | some l => l.contains uid)).map (·.id)
      else st.favorites
    { st with events := loaded, favorites := favs, loading := false }
  else
    { st with loading := false, log := st.log ++ [homeLoadErrMsg] }

/-- The per-event mirror update of Home.jsx toggleFavorite: on the event
being toggled, remove the user from `event.favorites` when the bit was on,
append the user when it was off (`event.favorites || []` on both reads);
other events are untouched. -/
def flipFavList (isFav : Bool) (x : Str) (l : List Str) : List Str :=
  if isFav then l.filter (fun i => i != x) else l ++ [x]

/-- See [flipFavList]; applied to the event whose id matches. -/
def flipEventFavs (isFav : Bool) (uid eid : Str) (ev : EventDoc) : EventDoc :=
  if ev.id == eid then
    { ev with favorites := some (flipFavList isFav uid (favOf ev.favorites)) }
  else ev

/-- Home.jsx toggleFavorite: bail out when unauthenticated; read the
membership bit from the favorites index; await the remote set-patch, and
only after it succeeds update the favorites index and the events mirror;
when the patch throws, the catch block only logs and no local state is
touched. -/
def toggleFavorite (auth : Bool) (uid : Str) (st : HomeState)
    (eid : Str) (remoteOk : Bool) : HomeState :=
  if !auth then st
  else
    let isFav := st.favorites.contains eid
    if remoteOk then
      { st with
        favorites := flipFavList isFav eid st.favorites
        events := st.events.map (flipEventFavs isFav uid eid) }
    else
      { st with log := st.log ++ [toggleErrMsg] }

/-! ## EventManagement page state (owner view, CRUD, search) -/

/-- The reactive state of EventManagement.jsx relevant to the claims. -/
structure EMState where
  events : List EventDoc
  selectedEvent : Option EventDoc
  loading : Bool
  error : Option Str
  success : Option Str
deriving DecidableEq

/-- Notice of the load failure path ("Greška pri učitavanju događaja"). -/
def emLoadErrMsg : Str := strOf "Greška pri učitavanju događaja"

/-- Notice of the search failure path ("Greška pri pretraživanju"). -/
def emSearchErrMsg : Str := strOf "Greška pri pretraživanju"

/-- EventManagement.jsx loadEvents: run the owner-scoped query; on success
replace the events mirror, on failure set the error notice and keep the
mirror; loading is cleared in the finally block on both paths. -/
def loadEM (st : EMState) (catalog : List EventDoc) (uid cat : Str)
    (remoteOk : Bool) : EMState :=
  if remoteOk then
    { st with events := runQuery catalog (emQuery uid cat), loading := false }
  else
    { st with error := some emLoadErrMsg, loading := false }

/-- EventManagement.jsx searchEvents: lowercase then trim the search term;
an empty or length-two-or-shorter term falls back to loadEvents; otherwise
re-run the owner-scoped query and keep the documents whose name contains
the term (optional chaining: a document without a name is dropped). -/
def searchEM (st : EMState) (catalog : List EventDoc) (uid cat : Str)
    (s : Str) (remoteOk : Bool) : EMState :=
  let term := trimStr (toLowerStr s)
  if term = [] ∨ term.length ≤ 2 then
    loadEM st catalog uid cat remoteOk
  else if remoteOk then
    { st with
      events := (runQuery catalog (emQuery uid cat)).filter (fun ev =>
        match ev.name with
        | none => false
        | some n => containsSub term (toLowerStr n))
      loading := false }
  else
    { st with error := some emSearchErrMsg, loading := false }

/-! ## Event CRUD controller (handleSubmit) -/

/-- The raw form values read out of the FormData: the text inputs may be
absent (optional chaining in the source), the datetime-local value is
given as the instant it parses to, the privacy checkbox is coerced by
double negation in the source. -/
structure SubmitForm where
  name : Option Str
  description : Option Str
  datetime : Int
  isPrivate : Bool
  category : Option Str
deriving DecidableEq

/-- The eventData object built by handleSubmit: trimmed name and
description, parsed datetime, category defaulting to "Other" when absent
or empty (falsy), the session user id, and created stamped with the
submission time — the same object is used for both the create and the
update branch. -/
structure EventData where
  name : Option Str
  description : Option Str
  datetime : DatetimeRep
  isPrivate : Bool
  category : Str
  userId : Str
  created : Int
deriving DecidableEq

/-- Build the eventData object from the form, the session user and the
submission time. -/
def buildEventData (uid : Str) (now : Int) (f : SubmitForm) : EventData :=
  { name := f.name.map trimStr
    description := f.description.map trimStr
    datetime := .raw f.datetime
    isPrivate := f.isPrivate
    category :=
      match f.category with
      | none => strOf "Other"
      | some c => if c = [] then strOf "Other" else c
    userId := uid
    created := now }

/-- The JS spread of eventData over an existing mirror entry: every
eventData field overwrites; fields not in eventData (id, favorites) are
kept. -/
def applyData (ev : EventDoc) (d : EventData) : EventDoc :=
  { id := ev.id
    name := d.name
    description := d.description
    datetime := d.datetime
    isPrivate := d.isPrivate
    category := d.category
    userId := d.userId
    created := d.created
    favorites := ev.favorites }

/-- The mirror entry appended after a create: the store-assigned id spread
together with eventData (no favorites field yet). -/
def newEventDoc (newId : Str) (d : EventData) : EventDoc :=
  { id := newId
    name := d.name
    description := d.description
    datetime := d.datetime
    isPrivate := d.isPrivate
    category := d.category
    userId := d.userId
    created := d.created
    favorites := none }

/-- Success notice of the update branch ("Događaj ažuriran"). -/
def emUpdatedMsg : Str := strOf "Događaj ažuriran"

/-- Success notice of the create branch ("Događaj dodan"). -/
def emAddedMsg : Str := strOf "Događaj dodan"

/-- Failure notice of the update branch ("Ažuriranje nije uspjelo"). -/
def emUpdFailMsg : Str := strOf "Ažuriranje nije uspjelo"

/-- Failure notice of the create branch ("Dodavanje nije uspjelo"). -/
def emAddFailMsg : Str := strOf "Dodavanje nije uspjelo"

/-- EventManagement.jsx handleSubmit: clear both notices, build eventData;
with a selected event, patch the document with the full eventData, merge
it into the matching mirror entry and into the selection; with no
selection, add the document and append the new entry at the end of the
mirror.  On a thrown remote write the mirror is untouched and the
operation-specific failure notice is set. -/
def handleSubmit (uid : Str) (now : Int) (f : SubmitForm) (st : EMState)
    (remoteOk : Bool) (newId : Str) : EMState :=
  let d := buildEventData uid now f
  let st0 := { st with error := none, success := none }
  match st.selectedEvent with
  | some sel =>
    if remoteOk then
      { st0 with
        events := st.events.map (fun ev =>
          if ev.id == sel.id then applyData ev d else ev)
        selectedEvent := some (applyData sel d)
        success := some emUpdatedMsg }
    else
      { st0 with error := some emUpdFailMsg }
  | none =>
    if remoteOk then
      { st0 with
        events := st.events ++ [newEventDoc newId d]
        success := some emAddedMsg }
    else
      { st0 with error := some emAddFailMsg }

/-- The events mirror is ordered by created descending (each entry is at
most as new as the one before it). -/
def sortedByCreatedDesc : List EventDoc → Bool
  | [] => true
  | [_] => true
  | a :: b :: t => (b.created ≤ a.created) && sortedByCreatedDesc (b :: t)

/-! ## Form binder (datetime normalization) -/

/-- Decimal digits of a natural number, as code points. -/
def digitsOf (n : Nat) : Str := (Nat.toDigits 10 n).map (fun c => c.toNat)

/-- Left-pad with zeros to the given width (toISOString field widths). -/
def padZero (w : Nat) (n : Nat) : Str :=
  let ds := digitsOf n
  List.replicate (w - ds.length) 48 ++ ds

/-- Days-to-civil-date conversion on the proleptic Gregorian calendar
(day 0 = 1970-01-01), as performed by Date.prototype.toISOString. -/
def civilFromDays (z0 : Int) : Int × Int × Int :=
  let z := z0 + 719468
  let era := z.fdiv 146097
  let doe := z - era * 146097
  let yoe := (doe - doe.fdiv 1460 + doe.fdiv 36524 - doe.fdiv 146096).fdiv 365
  let y := yoe + era * 400
  let doy := doe - (365 * yoe + yoe.fdiv 4 - yoe.fdiv 100)
  let mp := (5 * doy + 2).fdiv 153
  let d := doy - (153 * mp + 2).fdiv 5 + 1
  let m := mp + (if mp < 10 then 3 else -9)
  (y + (if m ≤ 2 then 1 else 0), m, d)

/-- The first 16 characters of new Date(t).toISOString(): the
"YYYY-MM-DDTHH:MM" wall-clock rendering of an epoch-millisecond instant
in UTC. -/
def isoSlice16 (t : Int) : Str :=
  let day := t.fdiv 86400000
  let msOfDay := (t.fmod 86400000).toNat
  let hh := msOfDay / 3600000
  let mm := (msOfDay % 3600000) / 60000
  let c := civilFromDays day
  padZero 4 c.1.toNat ++ strOf "-" ++ padZero 2 c.2.1.toNat ++ strOf "-" ++
    padZero 2 c.2.2.toNat ++ strOf "T" ++ padZero 2 hh ++ strOf ":" ++
    padZero 2 mm

/-- The instant the form binder extracts from the datetime field of the
selected event: `ev.datetime.toDate ? ev.datetime.toDate() : ev.datetime`
— the wrapper branch calls the conversion, the raw branch uses the value
directly as a date. -/
def binderInstant : DatetimeRep → Int
  | .wrapped t => t
  | .raw t => t

/-- The value the form binder writes into the datetime-local field:
`new Date(date.getTime() - date.getTimezoneOffset()*60000)
.toISOString().slice(0, 16)`, given the timezone offset in minutes. -/
def bindDatetimeField (tzOffsetMin : Int) (dt : DatetimeRep) : Str :=
  isoSlice16 (binderInstant dt - tzOffsetMin * 60000)

/-! ## Concrete sample data used by witnesses and counterexamples -/

/-- A sample session user. -/
def uidA : Str := strOf "u1"

/-- A public Music event (the A of the §8 scenario). -/
def evMusic : EventDoc :=
  ⟨strOf "eA", some (strOf "Koncert klavira"), some (strOf "opis"),
    .wrapped 1700000000000, false, strOf "Music", strOf "own1", 5000, some []⟩

/-- A private Sports event (the B of the §8 scenario). -/
def evSportsPriv : EventDoc :=
  ⟨strOf "eB", some (strOf "Utakmica"), some (strOf "opis"),
    .wrapped 1700000000000, true, strOf "Sports", strOf "own2", 6000, none⟩

/-- An event owned by the sample user, created at time 1000. -/
def evOwn : EventDoc :=
  ⟨strOf "eC", some (strOf "Stari naziv"), some (strOf "opis"),
    .raw 1700000000000, false, strOf "Music", uidA, 1000, none⟩

/-- A second event owned by the sample user, whose name matches the
sample search. -/
def evOwn2 : EventDoc :=
  ⟨strOf "eD", some (strOf "Koncert Jazz"), none, .raw 1700000000500,
    false, strOf "Music", uidA, 3000, none⟩

/-- A sample Home state holding the public Music event, nothing favorited. -/
def homeSt0 : HomeState := ⟨[evMusic], [], false, none, []⟩

/-- A sample management state with the owned event selected. -/
def emStSel : EMState := ⟨[evOwn], some evOwn, false, none, none⟩

/-- A sample management state with an empty mirror and no selection. -/
def emStNoEvents : EMState := ⟨[], none, false, none, none⟩

/-- A sample management state with one owned event and no selection. -/
def emStNoSel : EMState := ⟨[evOwn], none, false, none, none⟩

/-- A sample form submission. -/
def formA : SubmitForm :=
  ⟨some (strOf "Koncert"), some (strOf "opis"), 1740000000000, false,
    some (strOf "Music")⟩

/-! ## Helper lemmas -/

theorem contains_snoc_self {α} [BEq α] [LawfulBEq α] (l : List α) (a : α) :
    (l ++ [a]).contains a = true := by
  simp [List.contains, List.elem_eq_mem]

theorem contains_filter_ne {α} [BEq α] [LawfulBEq α] (l : List α) (a : α) :
    (l.filter (fun i => i != a)).contains a = false := by
  simp [List.contains, List.elem_eq_mem]

theorem not_mem_of_contains_eq_false {α} [BEq α] [LawfulBEq α]
    {l : List α} {a : α} (h : l.contains a = false) : a ∉ l := by
  simpa [List.contains, List.elem_eq_mem] using h

theorem filter_ne_of_not_mem {α} [BEq α] [LawfulBEq α]
    {l : List α} {a : α} (h : a ∉ l) : l.filter (fun i => i != a) = l := by
  rw [List.filter_eq_self]
  intro b hb
  have hba : b ≠ a := fun e => h (e ▸ hb)
  simpa using hba

theorem length_filter_ne_add_count {α} [BEq α] [LawfulBEq α]
    (l : List α) (u : α) :
    (l.filter (fun i => i != u)).length + l.count u = l.length := by
  induction l with
  | nil => rfl
  | cons a t ih =>
    by_cases h : a = u
    · subst h
      simp [List.filter_cons, List.count_cons]
      omega
    · have hne : (a != u) = true := by simpa using h
      have hcnt : (u == a) = false := by simpa using (Ne.symm h)
      have hcnt2 : (a == u) = false := by simpa using h
      simp [List.filter_cons, List.count_cons, hne, hcnt, hcnt2]
      omega

/-! ## Claim C1 -/

/-- C1, counterexample: the claim says the local membership bit is flipped
optimistically and that a failed remote patch leaves the flipped state in
place.  In the code the flip happens only after the awaited patch
succeeds: starting from a state where eA is not favorited, a toggle whose
remote patch fails leaves the bit off (the claim requires it on) and the
events mirror untouched. -/
theorem toggleFavorite_failure_cex :
    homeSt0.favorites.contains (strOf "eA") = false ∧
    (toggleFavorite true uidA homeSt0 (strOf "eA") false).favorites.contains
      (strOf "eA") = false ∧
    (toggleFavorite true uidA homeSt0 (strOf "eA") false).events
      = homeSt0.events := by
  decide

/-- C1, amended: for every toggle by an authenticated user, a failed
remote patch leaves the whole local state unchanged except for an
appended console-log entry — in particular the membership bit is not
flipped, nothing is rolled back because nothing was applied, and no
notice is surfaced — while a successful patch flips the membership bit
after the acknowledgement. -/
theorem toggleFavorite_flip_only_after_success (st : HomeState)
    (eid uid : Str) :
    toggleFavorite true uid st eid false
      = { st with log := st.log ++ [toggleErrMsg] } ∧
    (toggleFavorite true uid st eid true).favorites.contains eid
      = !(st.favorites.contains eid) := by
  refine ⟨rfl, ?_⟩
  cases h : st.favorites.contains eid with
  | true =>
    simp only [toggleFavorite, Bool.not_true, if_false, h, if_true,
      Bool.false_eq_true, ite_false, ite_true]
    exact contains_filter_ne st.favorites eid
  | false =>
    simp only [toggleFavorite, Bool.not_true, if_false, h, if_true,
      Bool.false_eq_true, ite_false, ite_true]
    exact contains_snoc_self st.favorites eid

/-! ## Claim C2 -/

/-- C2, code bug: the spec fixes createdAt as set once at creation, but
handleSubmit reuses the same eventData — including created = now — for
the update branch, so updating the selected event (created at time 1000,
resubmitted at time 2000) overwrites the stored and mirrored creation
timestamp with the submission time. -/
theorem handleSubmit_update_overwrites_created :
    evOwn.created = 1000 ∧
    ((handleSubmit uidA 2000 formA emStSel true (strOf "n")).events.map
      (fun ev => ev.created)) = [2000] ∧
    ((handleSubmit uidA 2000 formA emStSel true (strOf "n")).selectedEvent.map
      (fun ev => ev.created)) = some 2000 := by
  decide

/-! ## Claim C3 -/

/-- C3, counterexample: the public-browse query composed by Home.jsx
carries no orderBy clause at all, so the claim that every composed
catalog query orders by createdAt descending fails on it. -/
theorem homeQuery_no_order_cex :
    ¬ ((homeQuery (strOf "All")).order = some (strOf "created", true)) := by
  decide

/-- C3, amended: the owner-scoped query orders its results by createdAt
descending, with or without a category filter, while the public-browse
query applies no ordering at all. -/
theorem query_order_amended :
    (∀ uid cat, (emQuery uid cat).order = some (strOf "created", true)) ∧
    (∀ cat, (homeQuery cat).order = none) :=
  ⟨fun _ _ => rfl, fun _ => rfl⟩

/-! ## Claim C8 -/

/-- C8, counterexample: Home.jsx declares no error signal and renders no
notice element, so a failed public-browse load surfaces nothing: it
preserves the previous events collection but the user-visible notice
stays empty, where the claim requires a generic LoadError notice in both
views. -/
theorem loadHome_failure_no_notice_cex :
    (loadHome true uidA homeSt0 [evMusic, evSportsPriv] (strOf "All")
      false).events = homeSt0.events ∧
    (loadHome true uidA homeSt0 [evMusic, evSportsPriv] (strOf "All")
      false).notice = none := by
  decide

/-- C8, amended: every failed catalog load leaves the previously held
events collection untouched in both views; the owner-scoped view
surfaces the generic load-failure notice, while the public-browse view
surfaces no notice and only appends a console-log entry. -/
theorem load_failure_preserves_events (stH : HomeState) (stE : EMState)
    (auth : Bool) (catalog : List EventDoc) (uid cat : Str) :
    (loadEM stE catalog uid cat false).events = stE.events ∧
    (loadEM stE catalog uid cat false).error = some emLoadErrMsg ∧
    (loadHome auth uid stH catalog cat false).events = stH.events ∧
    (loadHome auth uid stH catalog cat false).notice = stH.notice ∧
    (loadHome auth uid stH catalog cat false).log
      = stH.log ++ [homeLoadErrMsg] :=
  ⟨rfl, rfl, rfl, rfl, rfl⟩

/-! ## Claim C4 -/

/-- Characterization of a successful authenticated toggle: the index and
the matching mirror entry are flipped against the membership bit read
from the index. -/
theorem toggleFavorite_true_eq (st : HomeState) (eid uid : Str) :
    toggleFavorite true uid st eid true
      = { st with
          favorites := flipFavList (st.favorites.contains eid) eid st.favorites
          events := st.events.map
            (flipEventFavs (st.favorites.contains eid) uid eid) } := rfl

theorem flipFavList_contains_flip (l : List Str) (e : Str) :
    (flipFavList (l.contains e) e l).contains e = !(l.contains e) := by
  cases h : l.contains e with
  | false => simp [flipFavList, contains_snoc_self]
  | true => simp [flipFavList, contains_filter_ne]

theorem flipFavList_twice_contains (l : List Str) (e : Str) :
    (flipFavList ((flipFavList (l.contains e) e l).contains e) e
        (flipFavList (l.contains e) e l)).contains e = l.contains e := by
  cases h : l.contains e with
  | false =>
    have hnm := not_mem_of_contains_eq_false h
    simp [flipFavList, contains_snoc_self, List.filter_append,
      filter_ne_of_not_mem hnm, h]
    exact hnm
  | true =>
    simp [flipFavList, contains_filter_ne, contains_snoc_self]

theorem flipEventFavs_twice_len (uid eid : Str) (b : Bool) (ev : EventDoc)
    (hoff : b = false → (ev.id == eid) = true →
      (favOf ev.favorites).contains uid = false)
    (hon : b = true → (ev.id == eid) = true →
      (favOf ev.favorites).count uid = 1) :
    (favOf (flipEventFavs (!b) uid eid (flipEventFavs b uid eid ev)).favorites).length
      = (favOf ev.favorites).length := by
  by_cases hid : (ev.id == eid) = true
  · cases b with
    | false =>
      have hnm := not_mem_of_contains_eq_false (hoff rfl hid)
      simp [flipEventFavs, hid, flipFavList, favOf, List.filter_append,
        filter_ne_of_not_mem hnm]
      intro a ha hau
      exact hnm (hau ▸ ha)
    | true =>
      have h1 := hon rfl hid
      have hlen := length_filter_ne_add_count (favOf ev.favorites) uid
      simp only [favOf] at h1 hlen
      simp [flipEventFavs, hid, flipFavList, favOf]
      omega
  · have hid2 : (ev.id == eid) = false := by simpa using hid
    simp [flipEventFavs, hid2]

/-- C4: toggling the same event twice in sequence, both remote patches
succeeding, returns the membership bit of the user to its original value
and leaves every mirror entry with the same favoritedBy cardinality as
before, provided the local mirror is well-formed: when the bit is off the
user is absent from the matching entry, and when the bit is on the user
occurs exactly once (the store's add-to-set semantics keeps the field
duplicate-free). -/
theorem toggleFavorite_twice_restores (st : HomeState) (eid uid : Str)
    (hoff : st.favorites.contains eid = false →
      ∀ ev ∈ st.events, (ev.id == eid) = true →
        (favOf ev.favorites).contains uid = false)
    (hon : st.favorites.contains eid = true →
      ∀ ev ∈ st.events, (ev.id == eid) = true →
        (favOf ev.favorites).count uid = 1) :
    ((toggleFavorite true uid (toggleFavorite true uid st eid true) eid
        true).favorites.contains eid = st.favorites.contains eid) ∧
    ((toggleFavorite true uid (toggleFavorite true uid st eid true) eid
        true).events.map (fun ev => (favOf ev.favorites).length)
      = st.events.map (fun ev => (favOf ev.favorites).length)) := by
  simp only [toggleFavorite_true_eq]
  constructor
  · exact flipFavList_twice_contains st.favorites eid
  · show ((st.events.map
        (flipEventFavs (st.favorites.contains eid) uid eid)).map
          (flipEventFavs
            ((flipFavList (st.favorites.contains eid) eid
              st.favorites).contains eid) uid eid)).map
              (fun ev => (favOf ev.favorites).length)
      = st.events.map (fun ev => (favOf ev.favorites).length)
    rw [flipFavList_contains_flip, List.map_map, List.map_map]
    apply List.map_congr_left
    intro ev hev
    exact flipEventFavs_twice_len uid eid (st.favorites.contains eid) ev
      (fun hb hid => hoff hb ev hev hid) (fun hb hid => hon hb ev hev hid)

/-- C4, witness: the double-toggle theorem applied to the sample state
where nothing is favorited. -/
theorem toggleFavorite_twice_restores_witness :
    ((toggleFavorite true uidA (toggleFavorite true uidA homeSt0
        (strOf "eA") true) (strOf "eA") true).favorites.contains (strOf "eA")
      = homeSt0.favorites.contains (strOf "eA")) ∧
    ((toggleFavorite true uidA (toggleFavorite true uidA homeSt0
        (strOf "eA") true) (strOf "eA") true).events.map
          (fun ev => (favOf ev.favorites).length)
      = homeSt0.events.map (fun ev => (favOf ev.favorites).length)) :=
  toggleFavorite_twice_restores homeSt0 (strOf "eA") uidA
    (by decide) (by decide)

/-! ## Claims C5 and C6 -/

theorem lowerN_isSpace (n : Nat) : isSpaceN (lowerN n) = isSpaceN n := by
  unfold lowerN
  split
  · rename_i h
    have h1 : isSpaceN (n + 32) = false := by
      simp [isSpaceN]
      omega
    have h2 : isSpaceN n = false := by
      simp [isSpaceN]
      omega
    rw [h1, h2]
  · rfl

theorem dropWhile_lower (l : Str) :
    (l.map lowerN).dropWhile isSpaceN = (l.dropWhile isSpaceN).map lowerN := by
  rw [List.dropWhile_map]
  have hp : (isSpaceN ∘ lowerN) = isSpaceN := funext lowerN_isSpace
  rw [hp]

/-- Lowercasing then trimming coincides with trimming then lowercasing:
ASCII case mapping never creates or destroys whitespace. -/
theorem trim_toLower_comm (s : Str) :
    trimStr (toLowerStr s) = toLowerStr (trimStr s) := by
  unfold trimStr toLowerStr
  rw [dropWhile_lower, ← List.map_reverse, dropWhile_lower, List.map_reverse]

/-- C6: a search whose term trims to at most two characters is treated as
no search: it falls back to the plain load, so the events collection
becomes the unfiltered scoped, category-filtered query result, and no
error notice is produced by this degenerate input. -/
theorem searchEM_short_term (st : EMState) (catalog : List EventDoc)
    (uid cat s : Str) (h : (trimStr s).length ≤ 2) :
    (searchEM st catalog uid cat s true).events
      = runQuery catalog (emQuery uid cat) ∧
    (searchEM st catalog uid cat s true).error = st.error := by
  have hlen : (trimStr (toLowerStr s)).length ≤ 2 := by
    rw [trim_toLower_comm, toLowerStr, List.length_map]
    exact h
  simp only [searchEM]
  rw [if_pos (Or.inr hlen)]
  exact ⟨rfl, rfl⟩

/-- C6, witness: searching for a two-letter term (with padding spaces)
over the sample owner catalog leaves the scoped result unfiltered and no
notice. -/
theorem searchEM_short_term_witness :
    (trimStr (strOf " ab ")).length ≤ 2 ∧
    ((searchEM emStSel [evOwn] uidA [] (strOf " ab ") true).events
      = runQuery [evOwn] (emQuery uidA []) ∧
     (searchEM emStSel [evOwn] uidA [] (strOf " ab ") true).error
      = emStSel.error) :=
  ⟨by decide,
    searchEM_short_term emStSel [evOwn] uidA [] (strOf " ab ") (by decide)⟩

/-- C5: a search whose term trims to more than two characters sets the
events collection to exactly the subset of the scoped, category-filtered
query result whose name contains the trimmed term as a case-insensitive
substring. -/
theorem searchEM_long_term (st : EMState) (catalog : List EventDoc)
    (uid cat s : Str) (h : 2 < (trimStr s).length) :
    (searchEM st catalog uid cat s true).events
      = (runQuery catalog (emQuery uid cat)).filter (fun ev =>
          match ev.name with
          | none => false
          | some n => containsSub (toLowerStr (trimStr s)) (toLowerStr n)) := by
  have hlen : (toLowerStr (trimStr s)).length = (trimStr s).length := by
    rw [toLowerStr, List.length_map]
  simp only [searchEM, trim_toLower_comm]
  rw [if_neg]
  · rfl
  · rintro (he | hle)
    · rw [he] at hlen
      simp at hlen
      omega
    · rw [hlen] at hle
      omega

/-- C5, witness: searching for " KONC " over a two-event owner catalog
keeps exactly the event whose name contains "konc" case-insensitively. -/
theorem searchEM_long_term_witness :
    2 < (trimStr (strOf " KONC ")).length ∧
    (searchEM emStSel [evOwn, evOwn2] uidA [] (strOf " KONC ") true).events
      = (runQuery [evOwn, evOwn2] (emQuery uidA [])).filter (fun ev =>
          match ev.name with
          | none => false
          | some n =>
            containsSub (toLowerStr (trimStr (strOf " KONC ")))
              (toLowerStr n)) :=
  ⟨by decide,
    searchEM_long_term emStSel [evOwn, evOwn2] uidA [] (strOf " KONC ")
      (by decide)⟩

/-! ## Claim C7 -/

theorem flipEventFavs_isPrivate (isFav : Bool) (uid eid : Str)
    (ev : EventDoc) :
    (flipEventFavs isFav uid eid ev).isPrivate = ev.isPrivate := by
  unfold flipEventFavs
  split <;> rfl

/-- C7: the public-browse events collection never contains a private
event: every document returned by the public-browse query, for every
category selection including All, has isPrivate false; a favorite toggle
(succeeding or failing) preserves the absence of private events in the
mirror; and on the catalog of the §8 scenario — A public Music, B
private Sports — browsing with category All yields exactly {A}. -/
theorem public_browse_no_private :
    (∀ (catalog : List EventDoc) (cat : Str),
      ∀ ev ∈ runQuery catalog (homeQuery cat), ev.isPrivate = false) ∧
    (∀ (st : HomeState) (eid uid : Str) (remoteOk : Bool),
      (∀ ev ∈ st.events, ev.isPrivate = false) →
      ∀ ev ∈ (toggleFavorite true uid st eid remoteOk).events,
        ev.isPrivate = false) ∧
    runQuery [evMusic, evSportsPriv] (homeQuery (strOf "All"))
      = [evMusic] := by
  refine ⟨?_, ?_, by decide⟩
  · intro catalog cat ev hev
    have hf : ev ∈ catalog.filter
        (fun e => (homeQuery cat).wheres.all (matchesWhere e)) := hev
    have hall := (List.mem_filter.mp hf).2
    have h1 : matchesWhere ev (.isPrivateEq false) = true :=
      List.all_eq_true.mp hall _ (by simp [homeQuery])
    simpa [matchesWhere] using h1
  · intro st eid uid remoteOk hpriv ev hev
    cases remoteOk with
    | false => exact hpriv ev hev
    | true =>
      rw [toggleFavorite_true_eq] at hev
      have hm : ev ∈ st.events.map
          (flipEventFavs (st.favorites.contains eid) uid eid) := hev
      obtain ⟨a, ha, rfl⟩ := List.mem_map.mp hm
      rw [flipEventFavs_isPrivate]
      exact hpriv a ha

/-- C7, witness: the preservation part applied to the sample state (whose
only event is public) under a failing toggle. -/
theorem public_browse_no_private_witness : evMusic.isPrivate = false :=
  public_browse_no_private.2.1 homeSt0 (strOf "eA") uidA false (by decide)
    evMusic (by decide)

/-! ## Claim C10 -/

theorem sortedDesc_append_new (l : List EventDoc) (x : EventDoc)
    (hne : l ≠ []) (hold : ∀ ev ∈ l, ev.created < x.created) :
    sortedByCreatedDesc (l ++ [x]) = false := by
  revert hne hold
  induction l with
  | nil => intro hne _; cases hne rfl
  | cons a t ih =>
    intro _ hold
    cases t with
    | nil =>
      have ha := hold a (by simp)
      simp [sortedByCreatedDesc]
      omega
    | cons b t2 =>
      have ihh : sortedByCreatedDesc ((b :: t2) ++ [x]) = false :=
        ih (by simp) (fun ev hev => hold ev (List.mem_cons_of_mem a hev))
      simp only [List.cons_append] at ihh ⊢
      rw [sortedByCreatedDesc, ihh, Bool.and_false]

/-- C10, counterexample: the claim says a successful create always leaves
a previously createdAt-descending mirror unsorted until the next reload,
but creating into an empty mirror (which is trivially sorted) yields a
one-element mirror that is still sorted by createdAt descending. -/
theorem create_append_sorted_cex :
    sortedByCreatedDesc emStNoEvents.events = true ∧
    (handleSubmit uidA 2000 formA emStNoEvents true (strOf "nid")).events
      = [newEventDoc (strOf "nid") (buildEventData uidA 2000 formA)] ∧
    sortedByCreatedDesc
      (handleSubmit uidA 2000 formA emStNoEvents true (strOf "nid")).events
      = true := by
  decide

/-- C10, amended: after every successful create the new event — the
store-assigned id with all submitted fields — is appended at the end of
the local mirror, not inserted in sort position; hence, whenever the
mirror was nonempty, ordered by createdAt descending, and every existing
entry is strictly older than the submission time, the mirror is no longer
ordered by createdAt descending until the next reload. -/
theorem create_appends_at_end (st : EMState) (uid : Str) (now : Int)
    (f : SubmitForm) (newId : Str) (hsel : st.selectedEvent = none)
    (hne : st.events ≠ [])
    (hold : ∀ ev ∈ st.events, ev.created < now)
    (_hsorted : sortedByCreatedDesc st.events = true) :
    (handleSubmit uid now f st true newId).events
      = st.events ++ [newEventDoc newId (buildEventData uid now f)] ∧
    sortedByCreatedDesc (handleSubmit uid now f st true newId).events
      = false := by
  have hev : (handleSubmit uid now f st true newId).events
      = st.events ++ [newEventDoc newId (buildEventData uid now f)] := by
    simp [handleSubmit, hsel]
  refine ⟨hev, ?_⟩
  rw [hev]
  exact sortedDesc_append_new st.events _ hne hold

/-- C10, witness: the amended create theorem applied to a nonempty sorted
sample mirror whose single entry is older than the submission. -/
theorem create_appends_at_end_witness :
    (emStNoSel.selectedEvent = none ∧ emStNoSel.events ≠ [] ∧
     (∀ ev ∈ emStNoSel.events, ev.created < 2000) ∧
     sortedByCreatedDesc emStNoSel.events = true) ∧
    ((handleSubmit uidA 2000 formA emStNoSel true (strOf "nid")).events
      = emStNoSel.events
        ++ [newEventDoc (strOf "nid") (buildEventData uidA 2000 formA)] ∧
     sortedByCreatedDesc
       (handleSubmit uidA 2000 formA emStNoSel true (strOf "nid")).events
      = false) :=
  ⟨⟨by decide, by decide, by decide, by decide⟩,
    create_appends_at_end emStNoSel uidA 2000 formA (strOf "nid")
      (by decide) (by decide) (by decide) (by decide)⟩

/-! ## Claim C9 -/

/-- C9: populating the form datetime field normalizes the selected event
datetime identically whether it arrives as a raw date value or as the
store-native wrapper exposing a conversion call: for the same underlying
instant both representations produce the same local-timezone-adjusted
wall-clock field string. -/
theorem bindDatetime_normalizes_identically (t tzOffsetMin : Int) :
    bindDatetimeField tzOffsetMin (.raw t)
      = bindDatetimeField tzOffsetMin (.wrapped t) := rfl

end EventApp
